import Mathlib

/-!
Shallow embedding of ranwhen.py (uptime-interval visualizer).

Timestamps are modelled as whole seconds since midnight of January 1 of
year 1 (the proleptic Gregorian calendar, which is exactly Python's naive
`datetime` model: no leap seconds, no time zones).  All timestamps produced
by the program come from `strptime` with format "%b %d %H:%M:%S %Y", hence
are whole seconds; `timedelta` values are likewise modelled as `Int`
seconds.  Lean's `Int` division `/` is Euclidean division, which for the
positive divisors used here (86400, 1800) coincides with Python's floor
division and with `datetime.replace(hour=0, minute=0, second=0)` /
`timedelta.days` semantics.
-/

set_option maxRecDepth 40000

/-- A parsed uptime record: `{ "from": ..., "to": ... }` in the source.
(`from` and `to` are reserved words in Lean, hence `from_` and `to_`.) -/
structure TimeSpan where
  from_ : Int
  to_ : Int
deriving Repr, DecidableEq, Inhabited

/-- Function time_overlap (ranwhen.py lines 56-62): the length of the intersection
of two time spans, `0` when they do not overlap. -/
def time_overlap (time_span_1 time_span_2 : TimeSpan) : Int :=
  if max time_span_1.from_ time_span_2.from_ ≥ min time_span_1.to_ time_span_2.to_ then
    0
  else
    min time_span_1.to_ time_span_2.to_ - max time_span_1.from_ time_span_2.from_

/-- Major time granularity (one day, in seconds): `day = timedelta(days=1)`. -/
def day : Int := 86400

/-- Minor time granularity (one half hour, in seconds):
`half_hour = timedelta(minutes=30)`. -/
def half_hour : Int := 1800

/-- Constant `half_hours_in_day = round(day / half_hour)` (ranwhen.py line 173). -/
def half_hours_in_day : Nat := 48

/-- One pass of the merge loop body (ranwhen.py lines 195-208): scan the
list left to right; whenever the current span overlaps the next one,
emit their union and skip both; the boolean records whether any merge
happened during the pass (the `time_spans_merged` flag). -/
def merge_pass : List TimeSpan → List TimeSpan × Bool
  | a :: b :: rest =>
    if time_overlap a b > 0 then
      ((⟨min a.from_ b.from_, max a.to_ b.to_⟩ : TimeSpan) :: (merge_pass rest).1, true)
    else
      let p := merge_pass (b :: rest)
      (a :: p.1, p.2)
  | l => (l, false)

/-- The `while time_spans_merged` loop (ranwhen.py lines 193-208), driven by
explicit fuel.  Each pass that merges strictly shortens the list, so
`l.length` passes always suffice to reach the fixed point (see
`merge_loop_fixed`). -/
def merge_loop : Nat → List TimeSpan → List TimeSpan
  | 0, l => l
  | fuel + 1, l =>
    let p := merge_pass l
    if p.2 then merge_loop fuel p.1 else p.1

/-- The merged span list: the value of the `time_spans` variable after the
merge loop of ranwhen.py lines 193-208 has terminated. -/
def time_spans_merged (l : List TimeSpan) : List TimeSpan :=
  merge_loop l.length l

/-- Span `b` starts no later and ends no later than `a`: the order in which
`last` emits records (most recent first).  Written `span_ge a b` for
"`a` is at least as recent as `b`". -/
def span_ge (a b : TimeSpan) : Prop :=
  b.from_ ≤ a.from_ ∧ b.to_ ≤ a.to_

instance : DecidableRel span_ge := fun a b => by
  unfold span_ge; infer_instance

/-- A span list ordered most-recent-first, as emitted by the log source. -/
def RecentFirst (l : List TimeSpan) : Prop :=
  l.Pairwise span_ge

instance (l : List TimeSpan) : Decidable (RecentFirst l) := by
  unfold RecentFirst; infer_instance

/-- Two spans do not overlap (the merge condition of line 199 is false). -/
def no_overlap (a b : TimeSpan) : Prop :=
  time_overlap a b = 0

instance : DecidableRel no_overlap := fun _ _ => by
  unfold no_overlap; infer_instance

-- ### Basic facts about `time_overlap`

theorem time_overlap_nonneg (a b : TimeSpan) : 0 ≤ time_overlap a b := by
  unfold time_overlap
  split <;> omega

theorem time_overlap_not_pos_iff (a b : TimeSpan) :
    ¬ time_overlap a b > 0 ↔ no_overlap a b := by
  unfold no_overlap time_overlap
  split <;> omega

-- ### Basic facts about `merge_pass`

theorem merge_pass_nil : merge_pass [] = ([], false) := rfl

theorem merge_pass_singleton (a : TimeSpan) : merge_pass [a] = ([a], false) := rfl

theorem merge_pass_eq_of_flag_false :
    ∀ l : List TimeSpan, (merge_pass l).2 = false → (merge_pass l).1 = l
  | [] => fun _ => rfl
  | [_] => fun _ => rfl
  | a :: b :: rest => by
    intro h
    by_cases hov : time_overlap a b > 0
    · simp [merge_pass, hov] at h
    · have ih := merge_pass_eq_of_flag_false (b :: rest)
      simp [merge_pass, hov] at h ⊢
      exact ih h

theorem merge_pass_length_le :
    ∀ l : List TimeSpan, (merge_pass l).1.length ≤ l.length
  | [] => by simp [merge_pass]
  | [_] => by simp [merge_pass]
  | a :: b :: rest => by
    by_cases hov : time_overlap a b > 0
    · simp only [merge_pass, if_pos hov]
      have := merge_pass_length_le rest
      simp only [List.length_cons]
      omega
    · simp only [merge_pass, if_neg hov]
      have := merge_pass_length_le (b :: rest)
      simp only [List.length_cons] at this ⊢
      omega

theorem merge_pass_length_lt :
    ∀ l : List TimeSpan, (merge_pass l).2 = true → (merge_pass l).1.length < l.length
  | [] => by simp [merge_pass]
  | [_] => by simp [merge_pass]
  | a :: b :: rest => by
    intro h
    by_cases hov : time_overlap a b > 0
    · simp only [merge_pass, if_pos hov]
      have := merge_pass_length_le rest
      simp only [List.length_cons]
      omega
    · have ih := merge_pass_length_lt (b :: rest)
      simp only [merge_pass, if_neg hov] at h ⊢
      have := ih h
      simp only [List.length_cons] at this ⊢
      omega

-- Sanity checks for the arithmetic model: Lean's `Int` `/` is Euclidean
-- division, i.e. floor division for the positive divisors used here.
example : (-7 : Int) / 2 = -4 := by decide
example : (100000 : Int) / 86400 = 1 := by decide

example : time_overlap ⟨0, 10⟩ ⟨5, 8⟩ = 3 := by decide
example : time_spans_merged [⟨3000, 9000⟩, ⟨0, 4000⟩] = [⟨0, 9000⟩] := by decide
example : time_spans_merged [⟨0, 10⟩, ⟨20, 30⟩, ⟨5, 8⟩] = [⟨0, 10⟩, ⟨20, 30⟩, ⟨5, 8⟩] := by decide

-- ### The merge loop reaches a fixed point

theorem merge_loop_of_flag_false (fuel : Nat) (l : List TimeSpan)
    (h : (merge_pass l).2 = false) : merge_loop fuel l = l := by
  cases fuel with
  | zero => rfl
  | succ n => simp [merge_loop, h, merge_pass_eq_of_flag_false l h]

theorem merge_loop_fixed :
    ∀ (fuel : Nat) (l : List TimeSpan), l.length ≤ fuel →
      merge_pass (merge_loop fuel l) = (merge_loop fuel l, false) := by
  intro fuel
  induction fuel with
  | zero =>
    intro l hl
    have : l = [] := List.eq_nil_of_length_eq_zero (Nat.le_zero.mp hl)
    subst this
    rfl
  | succ n ih =>
    intro l hl
    by_cases hf : (merge_pass l).2
    · have hlt := merge_pass_length_lt l hf
      simp only [merge_loop, hf, if_true]
      exact ih _ (by omega)
    · simp only [Bool.not_eq_true] at hf
      simp only [merge_loop, hf, Bool.false_eq_true, if_false]
      rw [merge_pass_eq_of_flag_false l hf]
      exact Prod.ext (merge_pass_eq_of_flag_false l hf) hf

theorem time_spans_merged_fixed (l : List TimeSpan) :
    merge_pass (time_spans_merged l) = (time_spans_merged l, false) :=
  merge_loop_fixed l.length l le_rfl

-- ### Sortedness (most-recent-first order) is preserved by merging

theorem merge_pass_dominated :
    ∀ (l : List TimeSpan) (x : TimeSpan), (∀ y ∈ l, span_ge x y) →
      ∀ z ∈ (merge_pass l).1, span_ge x z
  | [], _, _ => by simp [merge_pass]
  | [a], x, h => by
    simpa [merge_pass] using h a (by simp)
  | a :: b :: rest, x, h => by
    intro z hz
    by_cases hov : time_overlap a b > 0
    · simp only [merge_pass, if_pos hov, List.mem_cons] at hz
      rcases hz with hz | hz
      · subst hz
        have ha := h a (by simp)
        have hb := h b (by simp)
        unfold span_ge at ha hb ⊢
        constructor <;> simp <;> omega
      · exact merge_pass_dominated rest x
          (fun y hy => h y (by simp [hy])) z hz
    · simp only [merge_pass, if_neg hov, List.mem_cons] at hz
      rcases hz with hz | hz
      · subst hz; exact h z (by simp)
      · exact merge_pass_dominated (b :: rest) x
          (fun y hy => h y (by simp [List.mem_cons] at hy ⊢; tauto)) z hz

theorem merge_pass_recentFirst :
    ∀ l : List TimeSpan, RecentFirst l → RecentFirst (merge_pass l).1
  | [] => fun _ => by simp [RecentFirst, merge_pass]
  | [a] => fun h => by simpa [merge_pass] using h
  | a :: b :: rest => by
    intro h
    rcases List.pairwise_cons.mp h with ⟨ha, htail⟩
    rcases List.pairwise_cons.mp htail with ⟨hb, hrest⟩
    by_cases hov : time_overlap a b > 0
    · simp only [RecentFirst, merge_pass, if_pos hov]
      refine List.pairwise_cons.mpr ⟨?_, merge_pass_recentFirst rest hrest⟩
      refine merge_pass_dominated rest _ ?_
      intro y hy
      have h1 := ha y (by simp [hy])
      have h2 := hb y hy
      unfold span_ge at h1 h2 ⊢
      constructor <;> simp <;> omega
    · simp only [RecentFirst, merge_pass, if_neg hov]
      refine List.pairwise_cons.mpr ⟨?_, merge_pass_recentFirst (b :: rest) htail⟩
      exact merge_pass_dominated (b :: rest) a (fun y hy => by
        rcases List.mem_cons.mp hy with hy | hy
        · subst hy; exact ha y (by simp)
        · exact ha y (by simp [hy]))

theorem merge_loop_recentFirst :
    ∀ (fuel : Nat) (l : List TimeSpan), RecentFirst l → RecentFirst (merge_loop fuel l) := by
  intro fuel
  induction fuel with
  | zero => intro l h; exact h
  | succ n ih =>
    intro l h
    by_cases hf : (merge_pass l).2
    · simp only [merge_loop, hf, if_true]
      exact ih _ (merge_pass_recentFirst l h)
    · simp only [Bool.not_eq_true] at hf
      simp only [merge_loop, hf, Bool.false_eq_true, if_false]
      exact merge_pass_recentFirst l h

theorem time_spans_merged_recentFirst (l : List TimeSpan) (h : RecentFirst l) :
    RecentFirst (time_spans_merged l) :=
  merge_loop_recentFirst l.length l h

-- ### A pass-fixed-point has no adjacent overlaps, and, when sorted, none at all

theorem merge_pass_flag_false_chain :
    ∀ l : List TimeSpan, (merge_pass l).2 = false → l.Chain' no_overlap
  | [] => fun _ => List.chain'_nil
  | [_] => fun _ => List.chain'_singleton _
  | a :: b :: rest => by
    intro h
    by_cases hov : time_overlap a b > 0
    · simp [merge_pass, hov] at h
    · simp only [merge_pass, if_neg hov] at h
      exact List.chain'_cons.mpr
        ⟨(time_overlap_not_pos_iff a b).mp hov, merge_pass_flag_false_chain (b :: rest) h⟩

theorem merge_pass_flag_false_of_chain :
    ∀ l : List TimeSpan, l.Chain' no_overlap → (merge_pass l).2 = false
  | [] => fun _ => rfl
  | [_] => fun _ => rfl
  | a :: b :: rest => by
    intro h
    rcases List.chain'_cons.mp h with ⟨hab, htail⟩
    have hov : ¬ time_overlap a b > 0 := (time_overlap_not_pos_iff a b).mpr hab
    simp only [merge_pass, if_neg hov]
    exact merge_pass_flag_false_of_chain (b :: rest) htail

theorem no_overlap_of_to_le_from (a y : TimeSpan) (h : y.to_ ≤ a.from_) :
    no_overlap a y := by
  unfold no_overlap time_overlap
  split <;> omega

theorem to_le_from_of_no_overlap (a b : TimeSpan) (hge : span_ge a b)
    (h : no_overlap a b) : b.to_ ≤ a.from_ := by
  unfold span_ge at hge
  unfold no_overlap time_overlap at h
  split at h <;> omega

theorem pairwise_no_overlap_of_chain :
    ∀ l : List TimeSpan, RecentFirst l → l.Chain' no_overlap → l.Pairwise no_overlap := by
  intro l
  induction l with
  | nil => intro _ _; exact List.Pairwise.nil
  | cons a t ih =>
    intro hs hc
    rcases List.pairwise_cons.mp hs with ⟨ha, hts⟩
    refine List.pairwise_cons.mpr ⟨?_, ih hts (List.Chain'.tail hc)⟩
    intro y hy
    cases t with
    | nil => simp at hy
    | cons b t' =>
      have hab : no_overlap a b := (List.chain'_cons.mp hc).1
      have hba : b.to_ ≤ a.from_ :=
        to_le_from_of_no_overlap a b (ha b (by simp)) hab
      rcases List.mem_cons.mp hy with hy | hy
      · subst hy; exact hab
      · have hyb : span_ge b y := (List.pairwise_cons.mp hts).1 y hy
        exact no_overlap_of_to_le_from a y (by unfold span_ge at hyb; omega)

-- ### Total duration

/-- The total length of a span list: `Σ (to - from)`. -/
def total_duration (l : List TimeSpan) : Int :=
  (l.map (fun s => s.to_ - s.from_)).sum

theorem total_duration_cons (a : TimeSpan) (t : List TimeSpan) :
    total_duration (a :: t) = (a.to_ - a.from_) + total_duration t := by
  simp [total_duration]

theorem merge_pass_duration_le :
    ∀ l : List TimeSpan, total_duration (merge_pass l).1 ≤ total_duration l
  | [] => le_rfl
  | [_] => le_rfl
  | a :: b :: rest => by
    by_cases hov : time_overlap a b > 0
    · simp only [merge_pass, if_pos hov]
      have hrest := merge_pass_duration_le rest
      unfold time_overlap at hov
      rw [total_duration_cons, total_duration_cons, total_duration_cons]
      split at hov <;> simp <;> omega
    · simp only [merge_pass, if_neg hov]
      have := merge_pass_duration_le (b :: rest)
      rw [total_duration_cons, total_duration_cons]
      omega

theorem merge_pass_duration_lt :
    ∀ l : List TimeSpan, (merge_pass l).2 = true →
      total_duration (merge_pass l).1 < total_duration l
  | [] => by simp [merge_pass]
  | [_] => by simp [merge_pass]
  | a :: b :: rest => by
    intro h
    by_cases hov : time_overlap a b > 0
    · simp only [merge_pass, if_pos hov]
      have hrest := merge_pass_duration_le rest
      unfold time_overlap at hov
      rw [total_duration_cons, total_duration_cons, total_duration_cons]
      split at hov <;> simp <;> omega
    · simp only [merge_pass, if_neg hov] at h ⊢
      have := merge_pass_duration_lt (b :: rest) h
      rw [total_duration_cons, total_duration_cons]
      omega

theorem merge_loop_duration_le :
    ∀ (fuel : Nat) (l : List TimeSpan),
      total_duration (merge_loop fuel l) ≤ total_duration l := by
  intro fuel
  induction fuel with
  | zero => intro l; exact le_rfl
  | succ n ih =>
    intro l
    by_cases hf : (merge_pass l).2
    · simp only [merge_loop, hf, if_true]
      exact le_trans (ih _) (merge_pass_duration_le l)
    · simp only [Bool.not_eq_true] at hf
      simp only [merge_loop, hf, Bool.false_eq_true, if_false]
      exact merge_pass_duration_le l

theorem time_spans_merged_eq_of_flag_false (X : List TimeSpan)
    (h : (merge_pass X).2 = false) : time_spans_merged X = X :=
  merge_loop_of_flag_false X.length X h

theorem time_spans_merged_duration_le (X : List TimeSpan) :
    total_duration (time_spans_merged X) ≤ total_duration X :=
  merge_loop_duration_le X.length X

theorem time_spans_merged_duration_lt (X : List TimeSpan)
    (h : (merge_pass X).2 = true) :
    total_duration (time_spans_merged X) < total_duration X := by
  have hlen : 0 < X.length := by
    have := merge_pass_length_lt X h
    omega
  unfold time_spans_merged
  obtain ⟨n, hn⟩ : ∃ n, X.length = n + 1 := ⟨X.length - 1, by omega⟩
  rw [hn]
  simp only [merge_loop, h, if_true]
  exact lt_of_le_of_lt (merge_loop_duration_le n _) (merge_pass_duration_lt X h)

-- ### Claim C2: overlap-freedom of the merged result

/-- C2 (amended): for an input list ordered most-recent-first (the order the
log source emits), the fixed point of the merge loop is overlap-free: no two
intervals of the result, adjacent or not, overlap. -/
theorem C2_merged_pairwise_no_overlap (X : List TimeSpan) (h : RecentFirst X) :
    (time_spans_merged X).Pairwise no_overlap := by
  have hfix := time_spans_merged_fixed X
  have hflag : (merge_pass (time_spans_merged X)).2 = false := by rw [hfix]
  exact pairwise_no_overlap_of_chain _ (time_spans_merged_recentFirst X h)
    (merge_pass_flag_false_chain _ hflag)

theorem C2_merged_pairwise_no_overlap_witness :
    RecentFirst [⟨3000, 9000⟩, ⟨0, 4000⟩] ∧
      (time_spans_merged [⟨3000, 9000⟩, ⟨0, 4000⟩]).Pairwise no_overlap :=
  ⟨by decide, C2_merged_pairwise_no_overlap _ (by decide)⟩

/-- C2 counterexample: for the (not most-recent-first) input
`[[0,10), [20,30), [5,8)]` the merge loop is already at its fixed point, yet
the first and third intervals of the result overlap (`max(0,5) < min(10,8)`),
so the claim is false for arbitrary input order. -/
theorem C2_counterexample :
    ¬ (time_spans_merged [⟨0, 10⟩, ⟨20, 30⟩, ⟨5, 8⟩]).Pairwise no_overlap := by
  decide

-- ### Claim C5: merging is idempotent

/-- C5: the Interval Merger is idempotent: for every interval list `X`,
`merge(merge(X)) == merge(X)`; the merged list is a fixed point, so a second
run performs no merges and returns it unchanged. -/
theorem C5_time_spans_merged_idempotent (X : List TimeSpan) :
    time_spans_merged (time_spans_merged X) = time_spans_merged X := by
  have hfix := time_spans_merged_fixed X
  have hflag : (merge_pass (time_spans_merged X)).2 = false := by rw [hfix]
  exact merge_loop_of_flag_false _ _ hflag

-- ### Claim C6: total duration can only shrink

/-- C6 (amended): for an input list `X` ordered most-recent-first,
`Σ duration(merge(X)) ≤ Σ duration(X)`, and equality holds iff no two
intervals of `X` overlapped. -/
theorem C6_merged_duration (X : List TimeSpan) (h : RecentFirst X) :
    total_duration (time_spans_merged X) ≤ total_duration X ∧
      (total_duration (time_spans_merged X) = total_duration X ↔
        X.Pairwise no_overlap) := by
  refine ⟨time_spans_merged_duration_le X, ?_, ?_⟩
  · intro heq
    by_cases hf : (merge_pass X).2
    · exact absurd heq (ne_of_lt (time_spans_merged_duration_lt X hf))
    · simp only [Bool.not_eq_true] at hf
      exact pairwise_no_overlap_of_chain X h (merge_pass_flag_false_chain X hf)
  · intro hp
    have hflag := merge_pass_flag_false_of_chain X (List.Pairwise.chain' hp)
    rw [time_spans_merged_eq_of_flag_false X hflag]

theorem C6_merged_duration_witness :
    RecentFirst [⟨3000, 9000⟩, ⟨0, 4000⟩] ∧
      (total_duration (time_spans_merged [⟨3000, 9000⟩, ⟨0, 4000⟩]) ≤
          total_duration [⟨3000, 9000⟩, ⟨0, 4000⟩] ∧
        (total_duration (time_spans_merged [⟨3000, 9000⟩, ⟨0, 4000⟩]) =
            total_duration [⟨3000, 9000⟩, ⟨0, 4000⟩] ↔
          List.Pairwise no_overlap [⟨3000, 9000⟩, ⟨0, 4000⟩])) :=
  ⟨by decide, C6_merged_duration _ (by decide)⟩

/-- C6 counterexample: for `[[0,10), [20,30), [5,8)]` the merge loop performs
no merge (no adjacent pair overlaps), so the total duration is conserved, yet
two (non-adjacent) intervals of the input do overlap: the claimed
equivalence "equality iff no input intervals overlapped" is false as stated
for arbitrary input order. -/
theorem C6_counterexample :
    ¬ (total_duration (time_spans_merged [⟨0, 10⟩, ⟨20, 30⟩, ⟨5, 8⟩]) =
          total_duration [⟨0, 10⟩, ⟨20, 30⟩, ⟨5, 8⟩] ↔
        List.Pairwise no_overlap [⟨0, 10⟩, ⟨20, 30⟩, ⟨5, 8⟩]) := by
  decide

-- ### Period computation (ranwhen.py lines 211-216)

/-- Python's `t.replace(hour = 0, minute = 0, second = 0)`: midnight of the day
containing `t` (all timestamps here are whole seconds, and `Int` `/` is
floor division for the positive divisor 86400). -/
def midnight (t : Int) : Int := day * (t / day)

/-- Variable latest_time (ranwhen.py lines 212 and 215): midnight of the day of the
first merged span's end, plus one day.  (`spans[0]`; the list is non-empty
on this code path, the `headD` default is never used there.) -/
def latest_time (spans : List TimeSpan) : Int :=
  midnight (spans.headD default).to_ + day

/-- Variable earliest_time (ranwhen.py lines 213 and 216): midnight of the day of
the last merged span's start (`spans[-1]`). -/
def earliest_time (spans : List TimeSpan) : Int :=
  midnight (spans.getLastD default).from_

/-- Value `number_of_days = (latest_time - earliest_time).days` (ranwhen.py
line 260); `timedelta.days` is floor division by one day. -/
def number_of_days (spans : List TimeSpan) : Int :=
  (latest_time spans - earliest_time spans) / day

theorem midnight_le (t : Int) : midnight t ≤ t := by
  unfold midnight day; omega

theorem lt_midnight_add_day (t : Int) : t < midnight t + day := by
  unfold midnight day; omega

theorem day_dvd_midnight (t : Int) : day ∣ midnight t :=
  Dvd.intro _ rfl

theorem midnight_mono {s t : Int} (h : s ≤ t) : midnight s ≤ midnight t := by
  unfold midnight day; omega

-- ### Extremality of the first and last element of a sorted list

theorem getLastD_mem : ∀ (l : List TimeSpan), l ≠ [] → l.getLastD default ∈ l
  | [], h => absurd rfl h
  | [a], _ => by simp
  | a :: b :: t, _ => by
    have ih := getLastD_mem (b :: t) (by simp)
    simp only [List.getLastD_cons] at ih ⊢
    exact List.mem_cons_of_mem a ih

theorem span_ge_refl (a : TimeSpan) : span_ge a a := ⟨le_refl _, le_refl _⟩

theorem span_ge_trans {a b c : TimeSpan} (h1 : span_ge a b) (h2 : span_ge b c) :
    span_ge a c := by
  unfold span_ge at *
  omega

theorem head_dominates (l : List TimeSpan) (hs : RecentFirst l) :
    ∀ s ∈ l, span_ge (l.headD default) s := by
  cases l with
  | nil => simp
  | cons a t =>
    intro s hsmem
    rcases List.mem_cons.mp hsmem with h | h
    · subst h; exact span_ge_refl _
    · exact (List.pairwise_cons.mp hs).1 s h

theorem getLastD_dominated :
    ∀ l : List TimeSpan, RecentFirst l → ∀ s ∈ l, span_ge s (l.getLastD default)
  | [], _, s => by simp
  | [a], _, s => by
    intro hmem
    simp only [List.mem_singleton] at hmem
    simp only [List.getLastD_cons, List.getLastD_nil, hmem]
    exact span_ge_refl a
  | a :: b :: t, hs, s => by
    intro hmem
    rcases List.pairwise_cons.mp hs with ⟨ha, htail⟩
    have hlast_eq : (a :: b :: t).getLastD default = (b :: t).getLastD default := by
      simp [List.getLastD_cons]
    have ih := getLastD_dominated (b :: t) htail
    rcases List.mem_cons.mp hmem with h | h
    · subst h
      rw [hlast_eq]
      exact span_ge_trans (ha b (by simp)) (ih b (by simp))
    · rw [hlast_eq]
      exact ih s h

-- ### Merging preserves non-emptiness and non-degeneracy

theorem merge_pass_ne_nil :
    ∀ l : List TimeSpan, l ≠ [] → (merge_pass l).1 ≠ []
  | [], h => absurd rfl h
  | [a], _ => by simp [merge_pass]
  | a :: b :: rest, _ => by
    by_cases hov : time_overlap a b > 0 <;> simp [merge_pass, hov]

theorem merge_pass_nondegenerate :
    ∀ l : List TimeSpan, (∀ s ∈ l, s.from_ < s.to_) →
      ∀ s ∈ (merge_pass l).1, s.from_ < s.to_
  | [], _, s => by simp [merge_pass]
  | [a], h, s => by simpa [merge_pass] using h s
  | a :: b :: rest, h, s => by
    intro hmem
    by_cases hov : time_overlap a b > 0
    · simp only [merge_pass, if_pos hov, List.mem_cons] at hmem
      rcases hmem with hmem | hmem
      · subst hmem
        have h1 := h a (by simp)
        have h2 := h b (by simp)
        simp only
        omega
      · exact merge_pass_nondegenerate rest (fun y hy => h y (by simp [hy])) s hmem
    · simp only [merge_pass, if_neg hov, List.mem_cons] at hmem
      rcases hmem with hmem | hmem
      · subst hmem; exact h s (by simp)
      · exact merge_pass_nondegenerate (b :: rest)
          (fun y hy => h y (by simp [List.mem_cons] at hy ⊢; tauto)) s hmem

theorem merge_loop_ne_nil :
    ∀ (fuel : Nat) (l : List TimeSpan), l ≠ [] → merge_loop fuel l ≠ [] := by
  intro fuel
  induction fuel with
  | zero => intro l h; exact h
  | succ n ih =>
    intro l h
    by_cases hf : (merge_pass l).2
    · simp only [merge_loop, hf, if_true]
      exact ih _ (merge_pass_ne_nil l h)
    · simp only [Bool.not_eq_true] at hf
      simp only [merge_loop, hf, Bool.false_eq_true, if_false]
      exact merge_pass_ne_nil l h

theorem merge_loop_nondegenerate :
    ∀ (fuel : Nat) (l : List TimeSpan), (∀ s ∈ l, s.from_ < s.to_) →
      ∀ s ∈ merge_loop fuel l, s.from_ < s.to_ := by
  intro fuel
  induction fuel with
  | zero => intro l h; exact h
  | succ n ih =>
    intro l h
    by_cases hf : (merge_pass l).2
    · simp only [merge_loop, hf, if_true]
      exact ih _ (merge_pass_nondegenerate l h)
    · simp only [Bool.not_eq_true] at hf
      simp only [merge_loop, hf, Bool.false_eq_true, if_false]
      exact merge_pass_nondegenerate l h

theorem time_spans_merged_ne_nil (l : List TimeSpan) (h : l ≠ []) :
    time_spans_merged l ≠ [] :=
  merge_loop_ne_nil l.length l h

theorem time_spans_merged_nondegenerate (l : List TimeSpan)
    (h : ∀ s ∈ l, s.from_ < s.to_) :
    ∀ s ∈ time_spans_merged l, s.from_ < s.to_ :=
  merge_loop_nondegenerate l.length l h

theorem headD_mem (l : List TimeSpan) (h : l ≠ []) : l.headD default ∈ l := by
  cases l with
  | nil => exact absurd rfl h
  | cons a t => simp

theorem period_whole_days (l : List TimeSpan) (hne : l ≠ []) (hs : RecentFirst l)
    (hnd : ∀ s ∈ l, s.from_ < s.to_) :
    ∃ k : Int, 1 ≤ k ∧ latest_time l - earliest_time l = k * day := by
  have hlastmem := getLastD_mem l hne
  have hheadmem := headD_mem l hne
  have hdom := getLastD_dominated l hs (l.headD default) hheadmem
  have hndlast := hnd _ hlastmem
  have hle : (l.getLastD default).from_ ≤ (l.headD default).to_ := by
    unfold span_ge at hdom
    omega
  refine ⟨(l.headD default).to_ / day + 1 - (l.getLastD default).from_ / day, ?_, ?_⟩
  · unfold day at *
    omega
  · unfold latest_time earliest_time midnight day at *
    omega

-- ### Claim C8: the derived period is day-aligned and spans ≥ 1 whole day

/-- C8 (amended): for a non-empty input list ordered most-recent-first whose
intervals all satisfy `from < to`, the merged list's period is as specified:
the first merged span's end is the most recent end and `latest_time` is the
midnight strictly after it; the last merged span's start is the least recent
start and `earliest_time` is the midnight of its day; both bounds are
day-aligned and their difference is a whole number of days ≥ 1. -/
theorem C8_period (Y : List TimeSpan) (hne : Y ≠ []) (hs : RecentFirst Y)
    (hnd : ∀ s ∈ Y, s.from_ < s.to_) :
    (∀ s ∈ time_spans_merged Y,
        s.to_ ≤ ((time_spans_merged Y).headD default).to_) ∧
    ((time_spans_merged Y).headD default).to_ < latest_time (time_spans_merged Y) ∧
    latest_time (time_spans_merged Y) ≤
      ((time_spans_merged Y).headD default).to_ + day ∧
    day ∣ latest_time (time_spans_merged Y) ∧
    (∀ s ∈ time_spans_merged Y,
        ((time_spans_merged Y).getLastD default).from_ ≤ s.from_) ∧
    earliest_time (time_spans_merged Y) ≤
      ((time_spans_merged Y).getLastD default).from_ ∧
    ((time_spans_merged Y).getLastD default).from_ <
      earliest_time (time_spans_merged Y) + day ∧
    day ∣ earliest_time (time_spans_merged Y) ∧
    ∃ k : Int, 1 ≤ k ∧
      latest_time (time_spans_merged Y) - earliest_time (time_spans_merged Y) =
        k * day := by
  have hMne := time_spans_merged_ne_nil Y hne
  have hMs := time_spans_merged_recentFirst Y hs
  have hMnd := time_spans_merged_nondegenerate Y hnd
  refine ⟨fun s hsm => (head_dominates _ hMs s hsm).2,
    lt_midnight_add_day _,
    add_le_add_right (midnight_le _) day,
    dvd_add (day_dvd_midnight _) dvd_rfl,
    fun s hsm => (getLastD_dominated _ hMs s hsm).1,
    midnight_le _,
    lt_midnight_add_day _,
    day_dvd_midnight _,
    period_whole_days _ hMne hMs hMnd⟩

theorem C8_period_witness :
    (([⟨90000, 93600⟩, ⟨0, 3600⟩] : List TimeSpan) ≠ [] ∧
      RecentFirst [⟨90000, 93600⟩, ⟨0, 3600⟩] ∧
      (∀ s ∈ ([⟨90000, 93600⟩, ⟨0, 3600⟩] : List TimeSpan), s.from_ < s.to_)) ∧
    ((∀ s ∈ time_spans_merged [⟨90000, 93600⟩, ⟨0, 3600⟩],
        s.to_ ≤ ((time_spans_merged [⟨90000, 93600⟩, ⟨0, 3600⟩]).headD default).to_) ∧
    ((time_spans_merged [⟨90000, 93600⟩, ⟨0, 3600⟩]).headD default).to_ <
      latest_time (time_spans_merged [⟨90000, 93600⟩, ⟨0, 3600⟩]) ∧
    latest_time (time_spans_merged [⟨90000, 93600⟩, ⟨0, 3600⟩]) ≤
      ((time_spans_merged [⟨90000, 93600⟩, ⟨0, 3600⟩]).headD default).to_ + day ∧
    day ∣ latest_time (time_spans_merged [⟨90000, 93600⟩, ⟨0, 3600⟩]) ∧
    (∀ s ∈ time_spans_merged [⟨90000, 93600⟩, ⟨0, 3600⟩],
        ((time_spans_merged [⟨90000, 93600⟩, ⟨0, 3600⟩]).getLastD default).from_ ≤
          s.from_) ∧
    earliest_time (time_spans_merged [⟨90000, 93600⟩, ⟨0, 3600⟩]) ≤
      ((time_spans_merged [⟨90000, 93600⟩, ⟨0, 3600⟩]).getLastD default).from_ ∧
    ((time_spans_merged [⟨90000, 93600⟩, ⟨0, 3600⟩]).getLastD default).from_ <
      earliest_time (time_spans_merged [⟨90000, 93600⟩, ⟨0, 3600⟩]) + day ∧
    day ∣ earliest_time (time_spans_merged [⟨90000, 93600⟩, ⟨0, 3600⟩]) ∧
    ∃ k : Int, 1 ≤ k ∧
      latest_time (time_spans_merged [⟨90000, 93600⟩, ⟨0, 3600⟩]) -
          earliest_time (time_spans_merged [⟨90000, 93600⟩, ⟨0, 3600⟩]) =
        k * day) :=
  ⟨⟨by decide, by decide, by decide⟩,
    C8_period [⟨90000, 93600⟩, ⟨0, 3600⟩] (by decide) (by decide) (by decide)⟩

/-- C8 counterexample: the singleton list `[[172800, 0)]` (an inverted record
the parser can produce, see C3) is non-empty, most-recent-first, and is its
own merge fixed point, yet `latest_time - earliest_time = -86400`, which is
not a whole number of days ≥ 1. -/
theorem C8_counterexample :
    time_spans_merged [⟨172800, 0⟩] = [⟨172800, 0⟩] ∧
      RecentFirst [⟨172800, 0⟩] ∧
      latest_time [⟨172800, 0⟩] - earliest_time [⟨172800, 0⟩] < day := by
  refine ⟨by decide, by decide, by decide⟩

-- ### Claim C10: the daily-average divisor is at least one

/-- C10: if every parsed interval satisfies `from < to` and the list is
ordered most-recent-first, then `number_of_days` (computed from the merged
list, lines 211-216 and 260) is at least 1, so the daily-average division
`total_time / number_of_days` never divides by zero — including when all
intervals fall within one calendar day. -/
theorem C10_number_of_days_pos (Y : List TimeSpan) (hne : Y ≠ [])
    (hs : RecentFirst Y) (hnd : ∀ s ∈ Y, s.from_ < s.to_) :
    1 ≤ number_of_days (time_spans_merged Y) := by
  obtain ⟨k, hk1, hk⟩ := period_whole_days (time_spans_merged Y)
    (time_spans_merged_ne_nil Y hne) (time_spans_merged_recentFirst Y hs)
    (time_spans_merged_nondegenerate Y hnd)
  unfold number_of_days
  rw [hk]
  unfold day at *
  omega

theorem C10_number_of_days_pos_witness :
    (([⟨36000, 38700⟩] : List TimeSpan) ≠ [] ∧
      RecentFirst [⟨36000, 38700⟩] ∧
      (∀ s ∈ ([⟨36000, 38700⟩] : List TimeSpan), s.from_ < s.to_)) ∧
    1 ≤ number_of_days (time_spans_merged [⟨36000, 38700⟩]) :=
  ⟨⟨by decide, by decide, by decide⟩,
    C10_number_of_days_pos [⟨36000, 38700⟩] (by decide) (by decide) (by decide)⟩

-- ### Slot aggregation (ranwhen.py lines 220-240)

/-- The inner accumulation of ranwhen.py lines 230-232: the total overlap of
one time slot with all (merged) time spans. -/
def time_in_slot (time_slot : TimeSpan) (spans : List TimeSpan) : Int :=
  (spans.map (fun time_span => time_overlap time_slot time_span)).sum

/-- One entry of the `time_slots` list (line 233):
`{ "time": current_time, "time_in_slot": time_in_slot }`. -/
structure SlotPoint where
  time : Int
  time_in_slot : Int
deriving Repr, DecidableEq, Inhabited

/-- The `while current_time > earliest_time` loop of ranwhen.py lines
226-236, driven by explicit fuel: step `current_time` back one half hour and
record the slot `{from: current_time, to: current_time + half_hour}` with its
accumulated overlap.  (`latest - earliest` steps of fuel always suffice,
since every iteration decreases `current_time` by 1800.) -/
def slot_loop (spans : List TimeSpan) (earliest : Int) : Nat → Int → List SlotPoint
  | 0, _ => []
  | fuel + 1, current =>
    if earliest < current then
      { time := current - half_hour,
        time_in_slot := time_in_slot ⟨current - half_hour, current⟩ spans } ::
        slot_loop spans earliest fuel (current - half_hour)
    else []

/-- The `time_slots` list as built by lines 220-236: descending order
(latest slot first). -/
def time_slots (spans : List TimeSpan) (earliest latest : Int) : List SlotPoint :=
  slot_loop spans earliest (latest - earliest).toNat latest

/-- Result of `time_slots.reverse()` (ranwhen.py line 240): the slot list in
chronological (ascending) order, as consumed by the calendar rendering. -/
def time_slots_chrono (spans : List TimeSpan) (earliest latest : Int) : List SlotPoint :=
  (time_slots spans earliest latest).reverse

theorem slot_loop_times (spans : List TimeSpan) (e : Int) :
    ∀ (n fuel : Nat), n ≤ fuel →
      (slot_loop spans e fuel (e + n * half_hour)).map SlotPoint.time =
        ((List.range n).map (fun i : Nat => e + (i : Int) * half_hour)).reverse := by
  intro n
  induction n with
  | zero =>
    intro fuel _
    cases fuel with
    | zero => simp [slot_loop]
    | succ f => simp [slot_loop]
  | succ n ih =>
    intro fuel hfuel
    obtain ⟨f, rfl⟩ : ∃ f, fuel = f + 1 := ⟨fuel - 1, by omega⟩
    have hguard : e < e + ((n + 1 : Nat) : Int) * half_hour := by
      unfold half_hour
      push_cast
      nlinarith [Int.natCast_nonneg n]
    have harg : e + ((n + 1 : Nat) : Int) * half_hour - half_hour =
        e + (n : Int) * half_hour := by
      unfold half_hour
      push_cast
      ring
    simp only [slot_loop, if_pos hguard, List.map_cons, harg]
    rw [ih f (by omega)]
    rw [List.range_succ, List.map_append, List.reverse_append]
    simp

/-- C7: for any period with `latest = earliest + n * half_hour`, the slot
loop produces exactly `n` slot points, one for each half-hour slot start in
`[earliest, latest)`, and the list handed to calendar rendering
(`time_slots_chrono`) is the explicit reversal of the descending
`time_slots` list, in ascending chronological order
`earliest, earliest + 30min, ...`. -/
theorem C7_time_slots_count_and_order (spans : List TimeSpan) (e l : Int)
    (n : Nat) (h : l = e + n * half_hour) :
    (time_slots spans e l).length = n ∧
    time_slots_chrono spans e l = (time_slots spans e l).reverse ∧
    (time_slots_chrono spans e l).map SlotPoint.time =
      (List.range n).map (fun i : Nat => e + (i : Int) * half_hour) ∧
    (∀ p ∈ time_slots spans e l, e ≤ p.time ∧ p.time < l) := by
  subst h
  have hfuel : n ≤ (e + n * half_hour - e).toNat := by
    unfold half_hour
    omega
  have htimes := slot_loop_times spans e n _ hfuel
  have hlen : (time_slots spans e (e + n * half_hour)).length = n := by
    have := congrArg List.length htimes
    simpa [time_slots] using this
  refine ⟨hlen, rfl, ?_, ?_⟩
  · unfold time_slots_chrono
    rw [List.map_reverse]
    unfold time_slots
    rw [htimes, List.reverse_reverse]
  · intro p hp
    have hpt : p.time ∈ (slot_loop spans e ((e + n * half_hour - e).toNat)
        (e + n * half_hour)).map SlotPoint.time :=
      List.mem_map_of_mem SlotPoint.time hp
    rw [htimes, List.mem_reverse, List.mem_map] at hpt
    obtain ⟨i, hi, hieq⟩ := hpt
    rw [List.mem_range] at hi
    unfold half_hour at *
    omega

-- ### Claim C4: per-slot duration bounds

theorem time_in_slot_nonneg (slot : TimeSpan) :
    ∀ spans : List TimeSpan, 0 ≤ time_in_slot slot spans
  | [] => le_refl 0
  | a :: t => by
    have h1 := time_overlap_nonneg slot a
    have h2 := time_in_slot_nonneg slot t
    simp only [time_in_slot, List.map_cons, List.sum_cons] at h2 ⊢
    omega

theorem time_overlap_trim (s : TimeSpan) (c : Int) (y : TimeSpan)
    (h : y.to_ ≤ c) :
    time_overlap ⟨s.from_, min s.to_ c⟩ y = time_overlap s y := by
  unfold time_overlap
  simp only
  rw [show min (min s.to_ c) y.to_ = min s.to_ y.to_ by omega]

theorem time_in_slot_trim (s : TimeSpan) (c : Int) :
    ∀ t : List TimeSpan, (∀ y ∈ t, y.to_ ≤ c) →
      time_in_slot ⟨s.from_, min s.to_ c⟩ t = time_in_slot s t
  | [], _ => rfl
  | a :: t, h => by
    have h1 := time_overlap_trim s c a (h a (by simp))
    have h2 := time_in_slot_trim s c t (fun y hy => h y (by simp [hy]))
    simp only [time_in_slot, List.map_cons, List.sum_cons] at h2 ⊢
    omega

theorem time_in_slot_le (slot : TimeSpan) :
    ∀ spans : List TimeSpan, RecentFirst spans → spans.Pairwise no_overlap →
      time_in_slot slot spans ≤ max 0 (slot.to_ - slot.from_)
  | [] => by
    intro _ _
    simp [time_in_slot]
  | a :: t => by
    intro hs hp
    rcases List.pairwise_cons.mp hs with ⟨ha, hts⟩
    rcases List.pairwise_cons.mp hp with ⟨hao, htp⟩
    have h1 : ∀ y ∈ t, y.to_ ≤ a.from_ := fun y hy =>
      to_le_from_of_no_overlap a y (ha y hy) (hao y hy)
    have htrim := time_in_slot_trim slot a.from_ t h1
    have hih := time_in_slot_le (⟨slot.from_, min slot.to_ a.from_⟩ : TimeSpan)
      t hts htp
    rw [htrim] at hih
    simp only [time_in_slot, List.map_cons, List.sum_cons] at hih ⊢
    have hbound :
        time_overlap slot a + max 0 (min slot.to_ a.from_ - slot.from_) ≤
          max 0 (slot.to_ - slot.from_) := by
      unfold time_overlap
      split <;> omega
    have : time_in_slot slot t ≤ max 0 (min slot.to_ a.from_ - slot.from_) := by
      simpa [time_in_slot] using hih
    simp only [time_in_slot] at this
    omega

theorem slot_loop_mem_shape (spans : List TimeSpan) (e : Int) :
    ∀ (fuel : Nat) (current : Int), ∀ p ∈ slot_loop spans e fuel current,
      p.time_in_slot = time_in_slot ⟨p.time, p.time + half_hour⟩ spans := by
  intro fuel
  induction fuel with
  | zero => intro current p hp; simp [slot_loop] at hp
  | succ f ih =>
    intro current p hp
    by_cases hguard : e < current
    · simp only [slot_loop, if_pos hguard, List.mem_cons] at hp
      rcases hp with hp | hp
      · subst hp
        simp only
        rw [show current - half_hour + half_hour = current by omega]
      · exact ih _ p hp
    · simp [slot_loop, hguard] at hp

/-- C4 (amended): provided the input span list is ordered most-recent-first
(so that the merged list is pairwise overlap-free), every slot point the
aggregator produces from the merged list satisfies
`0 ≤ time_in_slot ≤ half_hour` (30 minutes). -/
theorem C4_time_in_slot_bounds (X : List TimeSpan) (h : RecentFirst X)
    (e l : Int) :
    ∀ p ∈ time_slots (time_spans_merged X) e l,
      0 ≤ p.time_in_slot ∧ p.time_in_slot ≤ half_hour := by
  intro p hp
  have hshape := slot_loop_mem_shape (time_spans_merged X) e _ l p hp
  have hMs := time_spans_merged_recentFirst X h
  have hflag : (merge_pass (time_spans_merged X)).2 = false := by
    rw [time_spans_merged_fixed]
  have hMp := pairwise_no_overlap_of_chain _ hMs (merge_pass_flag_false_chain _ hflag)
  constructor
  · rw [hshape]; exact time_in_slot_nonneg _ _
  · rw [hshape]
    have := time_in_slot_le (⟨p.time, p.time + half_hour⟩ : TimeSpan)
      (time_spans_merged X) hMs hMp
    simp only at this
    unfold half_hour at *
    omega

theorem C4_time_in_slot_bounds_witness :
    RecentFirst [⟨3000, 9000⟩, ⟨0, 4000⟩] ∧
      ∀ p ∈ time_slots (time_spans_merged [⟨3000, 9000⟩, ⟨0, 4000⟩]) 0 86400,
        0 ≤ p.time_in_slot ∧ p.time_in_slot ≤ half_hour :=
  ⟨by decide, C4_time_in_slot_bounds [⟨3000, 9000⟩, ⟨0, 4000⟩] (by decide) 0 86400⟩

/-- C4 counterexample: for the input `[[0,1800), [3600,5400), [0,1800)]`
(a merge fixed point: no adjacent pair overlaps, but the first and third
spans coincide), the aggregator running over the program's own derived
period produces the slot point `{time: 0, time_in_slot: 3600}`, violating
`time_in_slot ≤ half_hour = 1800`. -/
theorem C4_counterexample :
    time_spans_merged [⟨0, 1800⟩, ⟨3600, 5400⟩, ⟨0, 1800⟩] =
        [⟨0, 1800⟩, ⟨3600, 5400⟩, ⟨0, 1800⟩] ∧
      (⟨0, 3600⟩ : SlotPoint) ∈
        time_slots (time_spans_merged [⟨0, 1800⟩, ⟨3600, 5400⟩, ⟨0, 1800⟩])
          (earliest_time (time_spans_merged [⟨0, 1800⟩, ⟨3600, 5400⟩, ⟨0, 1800⟩]))
          (latest_time (time_spans_merged [⟨0, 1800⟩, ⟨3600, 5400⟩, ⟨0, 1800⟩])) ∧
      ¬ ((3600 : Int) ≤ half_hour) := by
  refine ⟨by decide, by decide, by decide⟩

-- ### Time-of-day profile and histogram quantization (lines 222, 234-235, 284-307)

/-- Index `current_time.hour * 2 + (1 if current_time.minute >= 30 else 0)`
(ranwhen.py line 234), for a timestamp in seconds:
`hour = (t mod day) / 3600`, `minute = (t mod 3600) / 60`. -/
def half_hour_index (t : Int) : Nat :=
  ((t % day) / 3600 * 2 + (if (t % 3600) / 60 ≥ 30 then 1 else 0)).toNat

/-- Array aggregated_time_slots (ranwhen.py lines 222, 234-235): 48 durations
(initialized to `timedelta()`), each accumulating `time_in_slot` at its
half-hour-of-day index during the slot traversal. -/
def aggregated_time_slots (pts : List SlotPoint) : List Int :=
  pts.foldl
    (fun acc p =>
      acc.set (half_hour_index p.time)
        (acc.getD (half_hour_index p.time) 0 + p.time_in_slot))
    (List.replicate half_hours_in_day 0)

/-- Accumulator total_time (ranwhen.py lines 224, 236). -/
def total_time (pts : List SlotPoint) : Int :=
  pts.foldl (fun acc p => acc + p.time_in_slot) 0

/-- Python's `min` over a non-empty list (the fallback for `[]` never occurs:
the profile always has 48 entries). -/
def list_min (l : List Int) : Int := l.foldl min (l.headD 0)

/-- Python's `max` over a non-empty list. -/
def list_max (l : List Int) : Int := l.foldl max (l.headD 0)

/-- Constant `levels = len(level_characters) - 1` (ranwhen.py line 286). -/
def levels : Int := 8

/-- Constant `number_of_lines = 4` (ranwhen.py line 284). -/
def number_of_lines : Int := 4

/-- Value `min_level = (min(aggregated_time_slots) / number_of_days) / half_hour`
(ranwhen.py line 288), in exact rationals.  (The source computes a
`timedelta / int` division rounded to whole microseconds and then a float
quotient; the claims settled here only depend on equal profile inputs
producing equal levels, on which the exact model agrees with the float
one.) -/
def min_level (profile : List Int) (days : Int) : ℚ :=
  ((list_min profile : ℚ) / (days : ℚ)) / ((half_hour : ℚ))

/-- Value max_level (ranwhen.py line 289). -/
def max_level (profile : List Int) (days : Int) : ℚ :=
  ((list_max profile : ℚ) / (days : ℚ)) / ((half_hour : ℚ))

/-- Python's `round` on an exact rational: nearest integer, ties to even. -/
def py_round (q : ℚ) : Int :=
  let f := Rat.floor q
  if q - f < 1 / 2 then f
  else if q - f > 1 / 2 then f + 1
  else if f % 2 = 0 then f else f + 1

theorem py_round_tie_even : py_round (5 / 2 : ℚ) = 2 := by
  unfold py_round
  rw [Rat.floor_def']
  norm_num

/-- The per-slot level computation of `format_histogram_line`
(ranwhen.py lines 295-300): `none` models the `ZeroDivisionError` raised by
`(level - min_level) / (max_level - min_level)` when
`max_level == min_level` (Python raises on float division by zero). -/
def histogram_level (min_l max_l : ℚ) (days : Int) (index : Nat)
    (time_slot : Int) : Option Int :=
  if max_l = min_l then none
  else
    let level0 : ℚ := ((time_slot : ℚ) / (days : ℚ)) / ((half_hour : ℚ))
    let normalized : ℚ := (level0 - min_l) / (max_l - min_l)
    let level1 : Int :=
      py_round (normalized * ((levels * number_of_lines : Int) : ℚ)) -
        (index : Int) * levels
    some (max 0 (min levels level1))

/-- Sequence the per-slot levels of one histogram row; the first
`ZeroDivisionError` aborts the whole line (and the whole run). -/
def histogram_levels_map (min_l max_l : ℚ) (days : Int) (index : Nat) :
    List Int → Option (List Int)
  | [] => some []
  | v :: t =>
    match histogram_level min_l max_l days index v,
        histogram_levels_map min_l max_l days index t with
    | some x, some xs => some (x :: xs)
    | _, _ => none

/-- Function format_histogram_line (ranwhen.py lines 291-307), data part only: the
list of clamped levels of row `index`, or `none` when the normalization
divides by zero. -/
def format_histogram_line (profile : List Int) (days : Int) (index : Nat) :
    Option (List Int) :=
  histogram_levels_map (min_level profile days) (max_level profile days)
    days index profile

theorem histogram_levels_map_cons_none (min_l max_l : ℚ) (days : Int)
    (index : Nat) (h : max_l = min_l) (v : Int) (t : List Int) :
    histogram_levels_map min_l max_l days index (v :: t) = none := by
  unfold histogram_levels_map histogram_level
  rw [if_pos h]

theorem uniform_profile_levels_eq :
    max_level (List.replicate 48 1800) 2 = min_level (List.replicate 48 1800) 2 := by
  unfold max_level min_level
  rw [show list_max (List.replicate 48 1800) = 1800 from by decide,
    show list_min (List.replicate 48 1800) = 1800 from by decide]

/-- C1 (evidence of the code bug): the single span `[0, 86400)` — one full
calendar day, e.g. the record
`reboot   system boot  Mon Jan 01 00:00:00 0001 - Tue Jan 02 00:00:00 0001`
— yields the uniform time-of-day profile `48 × 1800`; on it
`max_level = min_level`, and every row of the histogram hits the division
by zero (`none`), instead of the defined fallback level the claim
requires. -/
theorem C1_uniform_profile_division_by_zero :
    aggregated_time_slots
        (time_slots (time_spans_merged [⟨0, 86400⟩])
          (earliest_time (time_spans_merged [⟨0, 86400⟩]))
          (latest_time (time_spans_merged [⟨0, 86400⟩]))) =
      List.replicate 48 1800 ∧
    number_of_days (time_spans_merged [⟨0, 86400⟩]) = 2 ∧
    max_level (List.replicate 48 1800) 2 = min_level (List.replicate 48 1800) 2 ∧
    ∀ index : Fin 4,
      format_histogram_line (List.replicate 48 1800)
        (number_of_days (time_spans_merged [⟨0, 86400⟩])) index = none := by
  refine ⟨by decide, by decide, uniform_profile_levels_eq, ?_⟩
  intro index
  rw [show number_of_days (time_spans_merged [⟨0, 86400⟩]) = 2 from by decide]
  unfold format_histogram_line
  rw [show (List.replicate 48 (1800 : Int)) = 1800 :: List.replicate 47 1800 from by decide]
  exact histogram_levels_map_cons_none _ _ _ _ uniform_profile_levels_eq 1800 _

-- ### The record parser (ranwhen.py lines 35-51)

/-- Python's regex `\s` class, restricted to ASCII (the log source emits
ASCII only). -/
def isPySpace (c : Char) : Bool :=
  c = ' ' || c = '\t' || c = '\n' || c = '\r' || c = '\x0b' || c = '\x0c'

/-- Python's regex `\w` class, restricted to ASCII. -/
def isPyWord (c : Char) : Bool :=
  c.isAlpha || c.isDigit || c = '_'

/-- The character class `[\d\w\s:]` of the two capture groups. -/
def isGroupChar (c : Char) : Bool :=
  c.isDigit || isPyWord c || isPySpace c || c = ':'

/-- One token of the compiled `line_pattern` regex (`spaceStar` is the
internal continuation of `plusSpace` after its mandatory first space). -/
inductive RegexTok where
  | lit (s : List Char)
  | plusSpace
  | spaceStar
  | wordN (n : Nat)
  | group (n : Nat)

/-- Consume an exact literal prefix. -/
def dropLit : List Char → List Char → Option (List Char)
  | [], cs => some cs
  | p :: ps, c :: cs => if c = p then dropLit ps cs else none
  | _ :: _, [] => none

/-- Consume exactly `n` characters of class `p`, returning them and the
rest. -/
def takeExactly (p : Char → Bool) : Nat → List Char → Option (List Char × List Char)
  | 0, cs => some ([], cs)
  | _ + 1, [] => none
  | n + 1, c :: cs =>
    if p c then (takeExactly p n cs).map (fun r => (c :: r.1, r.2)) else none

/-- Backtracking matcher for a token list against a prefix of the input
(`re.match` semantics: the tail of the line beyond the pattern is
unconstrained).  `\s+` is greedy — it prefers the longest space run and
backtracks on failure, exactly as Python's engine does.  Every call
decreases the fuel by one and every step either consumes a character or
discharges a token, so fuel `cs.length + ts.length + 1` always suffices. -/
def regex_match : Nat → List RegexTok → List Char → Option (List (List Char))
  | 0, _, _ => none
  | _ + 1, [], _ => some []
  | fuel + 1, RegexTok.lit s :: ts, cs =>
    match dropLit s cs with
    | none => none
    | some rest => regex_match fuel ts rest
  | fuel + 1, RegexTok.wordN n :: ts, cs =>
    match takeExactly isPyWord n cs with
    | none => none
    | some r => regex_match fuel ts r.2
  | fuel + 1, RegexTok.group n :: ts, cs =>
    match takeExactly isGroupChar n cs with
    | none => none
    | some r => (regex_match fuel ts r.2).map (fun gs => r.1 :: gs)
  | fuel + 1, RegexTok.plusSpace :: ts, cs =>
    match cs with
    | [] => none
    | c :: rest =>
      if isPySpace c then regex_match fuel (RegexTok.spaceStar :: ts) rest
      else none
  | fuel + 1, RegexTok.spaceStar :: ts, cs =>
    (match cs with
     | c :: rest =>
       if isPySpace c then regex_match fuel (RegexTok.spaceStar :: ts) rest
       else none
     | [] => none).orElse
      (fun _ => regex_match fuel ts cs)

/-- Regex line_pattern (ranwhen.py line 37):
`reboot\s+system\s+boot\s+\w{3}\s+([\d\w\s:]{20})\s+-\s+\w{3}\s+([\d\w\s:]{20})`. -/
def line_pattern : List RegexTok :=
  [RegexTok.lit "reboot".data, RegexTok.plusSpace,
   RegexTok.lit "system".data, RegexTok.plusSpace,
   RegexTok.lit "boot".data, RegexTok.plusSpace,
   RegexTok.wordN 3, RegexTok.plusSpace,
   RegexTok.group 20, RegexTok.plusSpace,
   RegexTok.lit "-".data, RegexTok.plusSpace,
   RegexTok.wordN 3, RegexTok.plusSpace,
   RegexTok.group 20]

-- ### `datetime.strptime` with `time_format = "%b %d %H:%M:%S %Y"`

/-- Numeric value of a decimal digit character. -/
def digitVal (c : Char) : Nat := c.toNat - 48

/-- Field directive d of `_strptime` (regex `3[01]|[12]\d|0[1-9]|[1-9]`): two digits with
value 1..31, else one digit 1..9. -/
def parse_day : List Char → Option (Nat × List Char)
  | c1 :: c2 :: rest =>
    if c1.isDigit && c2.isDigit && 1 ≤ digitVal c1 * 10 + digitVal c2 &&
        digitVal c1 * 10 + digitVal c2 ≤ 31 then
      some (digitVal c1 * 10 + digitVal c2, rest)
    else if c1.isDigit && 1 ≤ digitVal c1 then
      some (digitVal c1, c2 :: rest)
    else none
  | [c1] =>
    if c1.isDigit && 1 ≤ digitVal c1 then some (digitVal c1, []) else none
  | [] => none

/-- Field directive H of `_strptime` (regex `2[0-3]|[0-1]\d|\d`): two digits 00..23, else
one digit. -/
def parse_hour : List Char → Option (Nat × List Char)
  | c1 :: c2 :: rest =>
    if c1.isDigit && c2.isDigit && digitVal c1 * 10 + digitVal c2 ≤ 23 then
      some (digitVal c1 * 10 + digitVal c2, rest)
    else if c1.isDigit then some (digitVal c1, c2 :: rest)
    else none
  | [c1] => if c1.isDigit then some (digitVal c1, []) else none
  | [] => none

/-- Field directives M and S of `_strptime` (regex `[0-5]\d|\d`): two digits 00..59,
else one digit. -/
def parse_min_sec : List Char → Option (Nat × List Char)
  | c1 :: c2 :: rest =>
    if c1.isDigit && c2.isDigit && digitVal c1 * 10 + digitVal c2 ≤ 59 then
      some (digitVal c1 * 10 + digitVal c2, rest)
    else if c1.isDigit then some (digitVal c1, c2 :: rest)
    else none
  | [c1] => if c1.isDigit then some (digitVal c1, []) else none
  | [] => none

/-- Field directive Y of `_strptime`: exactly four digits. -/
def parse_year4 : List Char → Option (Nat × List Char)
  | c1 :: c2 :: c3 :: c4 :: rest =>
    if c1.isDigit && c2.isDigit && c3.isDigit && c4.isDigit then
      some (digitVal c1 * 1000 + digitVal c2 * 100 + digitVal c3 * 10 +
        digitVal c4, rest)
    else none
  | _ => none

/-- The C-locale month abbreviations, lowercase (`%b` matches them
case-insensitively). -/
def month_abbrevs : List (List Char) :=
  ["jan".data, "feb".data, "mar".data, "apr".data, "may".data, "jun".data,
   "jul".data, "aug".data, "sep".data, "oct".data, "nov".data, "dec".data]

/-- Field directive b of `_strptime`: a three-letter month abbreviation,
case-insensitively. -/
def parse_month : List Char → Option (Nat × List Char)
  | c1 :: c2 :: c3 :: rest =>
    match month_abbrevs.findIdx? (fun m => m == [c1.toLower, c2.toLower, c3.toLower]) with
    | some i => some (i + 1, rest)
    | none => none
  | _ => none

/-- A literal `:` of the format string. -/
def expect_colon : List Char → Option (List Char)
  | c :: rest => if c = ':' then some rest else none
  | [] => none

/-- A literal space of the format string, compiled by `_strptime` to `\s+`
(here maximal munch: every later field starts with a non-space character,
so greediness never needs backtracking). -/
def skip_spaces1 : List Char → Option (List Char)
  | c :: rest =>
    if isPySpace c then some (rest.dropWhile isPySpace) else none
  | [] => none

/-- Gregorian leap year, exactly Python's `calendar.isleap`. -/
def is_leap (y : Nat) : Bool :=
  y % 4 == 0 && (y % 100 != 0 || y % 400 == 0)

/-- Length of a month, as validated by the `datetime` constructor. -/
def days_in_month (y m : Nat) : Nat :=
  if m = 2 then (if is_leap y then 29 else 28)
  else if m = 4 ∨ m = 6 ∨ m = 9 ∨ m = 11 then 30
  else 31

/-- Days in year `y` before the first of month `m`. -/
def days_before_month (y m : Nat) : Nat :=
  (List.range (m - 1)).foldl (fun acc i => acc + days_in_month y (i + 1)) 0

/-- Days before January 1 of year `y` (so `datetime.toordinal` is this plus
`days_before_month` plus the day of month). -/
def days_before_year (y : Nat) : Nat :=
  365 * (y - 1) + (y - 1) / 4 - (y - 1) / 100 + (y - 1) / 400

/-- Whole seconds since midnight of January 1 of year 1 for a validated
proleptic-Gregorian datetime (Python's `datetime`, via `toordinal`). -/
def datetime_seconds (y mo d h mi s : Nat) : Int :=
  (((days_before_year y + days_before_month y mo + (d - 1)) * 86400 +
    h * 3600 + mi * 60 + s : Nat) : Int)

/-- Python's `datetime.strptime(text, time_format)` with
`time_format = "%b %d %H:%M:%S %Y"` (ranwhen.py lines 41, 49-50): parse the
five fields, require the whole input to be consumed, and validate ranges as
the `datetime` constructor does (year ≥ 1, day within the month; the field
regexes already bound hour/minute/second).  `none` models the `ValueError`
Python raises on failure. -/
def strptime_time_format (cs : List Char) : Option Int := do
  let (mo, r1) ← parse_month cs
  let r2 ← skip_spaces1 r1
  let (d, r3) ← parse_day r2
  let r4 ← skip_spaces1 r3
  let (h, r5) ← parse_hour r4
  let r6 ← expect_colon r5
  let (mi, r7) ← parse_min_sec r6
  let r8 ← expect_colon r7
  let (s, r9) ← parse_min_sec r8
  let r10 ← skip_spaces1 r9
  let (y, r11) ← parse_year4 r10
  if r11 = [] ∧ 1 ≤ y ∧ d ≤ days_in_month y mo then
    some (datetime_seconds y mo d h mi s)
  else none

/-- Function parse_line (ranwhen.py lines 44-51): match `line_pattern` against the
line; on a match, parse the two captured 20-character groups with
`strptime` and return `{"from": ..., "to": ...}` — with no comparison
between the two timestamps.  A regex non-match is `none` (the line is
skipped).  A `strptime` `ValueError` on a matched line (uncaught in the
source, so it would abort the whole Python run) is also modelled as `none`;
no claim settled here depends on that distinction. -/
def parse_line (line : String) : Option TimeSpan :=
  match regex_match (line.data.length + line_pattern.length + 2)
      line_pattern line.data with
  | none => none
  | some [g1, g2] =>
    match strptime_time_format g1, strptime_time_format g2 with
    | some from_time, some to_time => some ⟨from_time, to_time⟩
    | _, _ => none
  | some _ => none

/-- The parse loop of ranwhen.py lines 180-186: the `time_spans` list before
merging, in output order. -/
def time_spans (lines : List String) : List TimeSpan :=
  lines.filterMap parse_line

-- The example line from the source comment (ranwhen.py line 36) parses to
-- the expected pair of timestamps.
example :
    parse_line "reboot   system boot  Wed Jan 16 21:36:54 2013 - Wed Jan 16 22:05:50 2013  (00:28)" =
      some ⟨63493969014, 63493970750⟩ := by decide

-- ### Claim C3: the parser performs no from < to check

/-- C3 (amended): the Record Parser produces an interval for every matching
line with two parseable timestamps, in field order and with no comparison
between them — so degenerate intervals (`from >= to`) are not dropped, and
every produced interval is appended to the span list handed to the
Merger. -/
theorem C3_parsed_span_reaches_merger (lines : List String) (line : String)
    (s : TimeSpan) (hmem : line ∈ lines) (h : parse_line line = some s) :
    s ∈ time_spans lines :=
  List.mem_filterMap.mpr ⟨line, hmem, h⟩

theorem C3_parsed_span_reaches_merger_witness :
    ("reboot   system boot  Sat Jan 01 00:00:00 2000 - Sat Jan 01 00:00:00 2000  (00:00)" ∈
        ["reboot   system boot  Sat Jan 01 00:00:00 2000 - Sat Jan 01 00:00:00 2000  (00:00)"] ∧
      parse_line "reboot   system boot  Sat Jan 01 00:00:00 2000 - Sat Jan 01 00:00:00 2000  (00:00)" =
        some ⟨63082281600, 63082281600⟩) ∧
    (⟨63082281600, 63082281600⟩ : TimeSpan) ∈
      time_spans ["reboot   system boot  Sat Jan 01 00:00:00 2000 - Sat Jan 01 00:00:00 2000  (00:00)"] :=
  ⟨⟨by decide, by decide⟩,
    C3_parsed_span_reaches_merger
      ["reboot   system boot  Sat Jan 01 00:00:00 2000 - Sat Jan 01 00:00:00 2000  (00:00)"]
      "reboot   system boot  Sat Jan 01 00:00:00 2000 - Sat Jan 01 00:00:00 2000  (00:00)"
      ⟨63082281600, 63082281600⟩ (by decide) (by decide)⟩

/-- C3 counterexample: a matching record line whose two timestamps are equal
is not dropped: `parse_line` produces the degenerate interval
`from = to = Jan 1 2000 00:00:00`, and it reaches the Merger input. -/
theorem C3_counterexample :
    parse_line "reboot   system boot  Sat Jan 01 00:00:00 2000 - Sat Jan 01 00:00:00 2000  (00:00)" =
        some ⟨63082281600, 63082281600⟩ ∧
      ¬ ((63082281600 : Int) < 63082281600) ∧
      time_spans ["reboot   system boot  Sat Jan 01 00:00:00 2000 - Sat Jan 01 00:00:00 2000  (00:00)"] =
        [⟨63082281600, 63082281600⟩] := by
  refine ⟨by decide, by decide, by decide⟩

-- ### Claim C9: fail-fast when nothing parses

/-- The stage sequencing of ranwhen.py lines 180-208: after the parse loop,
`sys.exit` aborts with a diagnostic (non-zero exit status, no chart output)
when `time_spans` is empty (line 188-189); otherwise the merged list flows
on to the period/aggregation/chart stages.  `Except.error` models the
aborting exit. -/
def run_parse_stage (lines : List String) : Except String (List TimeSpan) :=
  if time_spans lines = [] then
    Except.error "Error: last -R -F reboot returned no parsable output"
  else
    Except.ok (time_spans_merged (time_spans lines))

/-- C9: if zero records parse from the whole output, the run aborts with the
diagnostic error before any chart output; if at least one record parses,
that error exit is not taken and the merged spans flow on. -/
theorem C9_exit_iff_no_records (lines : List String) :
    (time_spans lines = [] →
      run_parse_stage lines =
        Except.error "Error: last -R -F reboot returned no parsable output") ∧
    (time_spans lines ≠ [] →
      run_parse_stage lines =
        Except.ok (time_spans_merged (time_spans lines))) := by
  constructor <;> intro h <;> simp [run_parse_stage, h]

theorem C9_exit_iff_no_records_witness :
    (time_spans ["wtmp begins Sat Jan 05 2013"] = [] ∧
      run_parse_stage ["wtmp begins Sat Jan 05 2013"] =
        Except.error "Error: last -R -F reboot returned no parsable output") ∧
    (time_spans ["reboot   system boot  Wed Jan 16 21:36:54 2013 - Wed Jan 16 22:05:50 2013  (00:28)"] ≠ [] ∧
      run_parse_stage ["reboot   system boot  Wed Jan 16 21:36:54 2013 - Wed Jan 16 22:05:50 2013  (00:28)"] =
        Except.ok (time_spans_merged
          (time_spans ["reboot   system boot  Wed Jan 16 21:36:54 2013 - Wed Jan 16 22:05:50 2013  (00:28)"]))) :=
  ⟨⟨by decide, (C9_exit_iff_no_records ["wtmp begins Sat Jan 05 2013"]).1 (by decide)⟩,
    ⟨by decide,
      (C9_exit_iff_no_records
        ["reboot   system boot  Wed Jan 16 21:36:54 2013 - Wed Jan 16 22:05:50 2013  (00:28)"]).2
        (by decide)⟩⟩

theorem C7_time_slots_count_and_order_witness :
    ((3600 : Int) = 0 + (2 : Nat) * half_hour) ∧
    ((time_slots [⟨3000, 3900⟩] 0 3600).length = 2 ∧
      time_slots_chrono [⟨3000, 3900⟩] 0 3600 =
        (time_slots [⟨3000, 3900⟩] 0 3600).reverse ∧
      (time_slots_chrono [⟨3000, 3900⟩] 0 3600).map SlotPoint.time =
        (List.range 2).map (fun i : Nat => 0 + (i : Int) * half_hour) ∧
      (∀ p ∈ time_slots [⟨3000, 3900⟩] 0 3600,
        (0 : Int) ≤ p.time ∧ p.time < 3600)) :=
  ⟨by decide, C7_time_slots_count_and_order [⟨3000, 3900⟩] 0 3600 2 (by decide)⟩
